import Mathlib

/-!
Shallow embedding of the Haven proxy component (`proxy/proxy.ts`, compiled as
`src/unnamed/part_007`) and of the configuration made by the serve handler
(`app.ts`, `src/unnamed/part_005`).

The proxy class holds two route prefixes and a debug flag.  Its methods are
`route` (exact path match against the forward prefix), `routeWs` (startsWith
match against the relay prefix), `handle` (HTTP forward) and `handleWs`
(WebSocket relay).  Platform primitives that the code calls but that are not
part of the repository (`JSON.parse`, `fetch`, `Deno.upgradeWebSocket`,
`new URL(u).searchParams.get`, the `WebSocket` constructor) are modelled as
oracles gathered in `Platform` / `WsPlatform` structures; a thrown exception
is an `Except.error` carrying the error message, and an async function that
lets an exception escape is a function whose result is `Except.error`.
-/

namespace Haven

/-- A header list, as carried by a `Request`.  The WHATWG `Headers`
container's `get` is case-insensitive, which we model by lower-casing the
keys on lookup. -/
abbrev Hdrs : Type := List (String × String)

/-- ASCII-style lower-casing of a string, character by character (the
case-insensitivity of the `Headers` container). -/
def lowerStr (s : String) : String := ⟨s.data.map Char.toLower⟩

/-- `headers.get(name)`: case-insensitive lookup, `none` models `null`. -/
def hget (hs : Hdrs) (name : String) : Option String :=
  (List.find? (fun p => lowerStr p.1 = lowerStr name) hs).map (fun p => p.2)

/-- An inbound request: method, full URL, headers, and the text that
`await req.text()` would produce from its body. -/
structure Req where
  method : String
  url : String
  headers : Hdrs
  body : String

/-- The options object passed to `fetch(url, opts)`. -/
structure FetchOpts where
  method : String
  headers : Hdrs
  body : Option String
  deriving DecidableEq, Repr

/-- The upstream `Response` that `fetch` resolves to: its status, the list
produced by `proxyResp.headers.entries()` (the `Headers` class yields
lower-cased, deduplicated keys there), and its body stream. -/
structure UpstreamResp where
  status : Nat
  headersEntries : List (String × String)
  body : String
  deriving DecidableEq, Repr

/-- A `Response` built by the proxy: `new Response(body, {status, headers})`.
`headers` is the explicit header object passed to the constructor. -/
structure Resp where
  status : Nat
  headers : List (String × String)
  body : String
  deriving DecidableEq, Repr

/-- Platform oracles used by `handle`: `JSON.parse` (an `.error` is a thrown
`SyntaxError` with that message) and `fetch` (an `.error` is a rejection
whose `err.message` is that string; an `.ok` is the upstream response). -/
structure Platform where
  jsonParse : String → Except String Hdrs
  fetchResult : String → FetchOpts → Except String UpstreamResp

/-- JavaScript property assignment `o[k] = v` on a plain object: if a
binding for `k` exists it is overwritten in place (keeping its position),
otherwise `(k, v)` is appended at the end, matching JS property order. -/
def objSet : List (String × String) → String → String → List (String × String)
  | [], k, v => [(k, v)]
  | (k', v') :: t, k, v =>
      if k' = k then (k, v) :: t else (k', v') :: objSet t k v

/-- `Object.fromEntries(entries)`: later entries overwrite earlier ones. -/
def objFromEntries (l : List (String × String)) : List (String × String) :=
  l.foldl (fun o p => objSet o p.1 p.2) []

/-- `delete o[k]`: removes the binding with exactly key `k`. -/
def objDelete (o : List (String × String)) (k : String) : List (String × String) :=
  o.filter (fun p => p.1 ≠ k)

/-- Object spread `\x7b ...base, ...extra \x7d`: entries of `extra` are
assigned over `base`, later keys overwriting earlier ones. -/
def objMerge (base extra : List (String × String)) : List (String × String) :=
  extra.foldl (fun o p => objSet o p.1 p.2) base

/-- Property lookup `o[k]` on a plain object (exact key). -/
def objGet (o : List (String × String)) (k : String) : Option String :=
  match o with
  | [] => none
  | (k', v) :: t => if k' = k then some v else objGet t k

/-- The options object built inside `handle`'s try block:
`\x7b method: req.method, headers \x7d`, then `opts.body = await req.text()`
when the method is `POST`. -/
def mkOpts (req : Req) (headers : Hdrs) : FetchOpts :=
  let opts : FetchOpts := { method := req.method, headers := headers, body := none }
  if opts.method = "POST" then { opts with body := some req.body } else opts

/-- The success branch of `handle`'s try block: copy the upstream header
entries into a plain object, `delete` the keys `age`, `cache-control`,
`expires`, and return a response with the upstream status, the header object
`\x7b "cache-control": "no-cache", ...respHeaders \x7d`, and the upstream body. -/
def strippedHeaders (u : UpstreamResp) : List (String × String) :=
  objDelete (objDelete (objDelete (objFromEntries u.headersEntries) "age") "cache-control")
    "expires"

def sanitize (u : UpstreamResp) : Resp :=
  { status := u.status
    headers := objMerge [("cache-control", "no-cache")] (strippedHeaders u)
    body := u.body }

/-- The try/catch body of `handle`: one `fetch`; a rejection is caught and
becomes `new Response(err.message, \x7b status: 500 \x7d)`. -/
def handleTry (p : Platform) (url : String) (opts : FetchOpts) : Resp :=
  match p.fetchResult url opts with
  | .error err => { status := 500, headers := [], body := err }
  | .ok proxyResp => sanitize proxyResp

/-- The proxy object: `prefix` (forward route), `wsPrefix` (relay route)
and `debug`.  (The source field names `prefix`/`wsPrefix` are kept as
`pfx`/`wsPfx`.) -/
structure Proxy where
  pfx : String
  wsPfx : String
  dbg : Bool

/-- `route(path) \x7b return path === this.prefix \x7d`. -/
def Proxy.route (px : Proxy) (path : String) : Bool :=
  path = px.pfx

/-- `routeWs(path) \x7b return path.startsWith(this.wsPrefix) \x7d`.
JavaScript `startsWith` is the character-prefix test, modelled on the
character lists underlying the strings. -/
def Proxy.routeWs (px : Proxy) (path : String) : Bool :=
  px.wsPfx.data.isPrefixOf path.data

/-- `async handle(req)`.  Note that the `JSON.parse` of the `x-headers`
header happens BEFORE the try block: a parse failure rejects the promise
(`Except.error`) instead of reaching the catch clause.  The debug log and
POST log are side-effect free here. -/
def Proxy.handle (_px : Proxy) (p : Platform) (req : Req) : Except String Resp :=
  let url := (hget req.headers "x-url").getD ""
  match p.jsonParse ((hget req.headers "x-headers").getD "") with
  | .error e => .error e
  | .ok headers => .ok (handleTry p url (mkOpts req headers))

/-- The proxy instance constructed in `app.ts`:
`new Proxy("/fetch", "/fetchWs")` (debug defaults to false). -/
def havenProxy : Proxy := { pfx := "/fetch", wsPfx := "/fetchWs", dbg := false }

/-- A WebSocket frame: text frames carry a string, binary frames bytes. -/
inductive Frame where
  | text (s : String)
  | binary (b : List Nat)
  deriving DecidableEq, Repr

/-- The observable state of one relay session wired by `handleWs`:
`sock` is the client socket, `proxySock` the upstream one.  `toUpstream`
records the frames the handler passed to `proxySock.send`, `toClient`
those passed to `sock.send`; the flags record `close()` state. -/
structure Session where
  clientClosed : Bool
  upstreamClosed : Bool
  toUpstream : List Frame
  toClient : List Frame
  deriving DecidableEq, Repr

/-- The session as it stands right after `handleWs` assigns the four
handlers: both sockets open, nothing relayed yet. -/
def initSession : Session :=
  { clientClosed := false, upstreamClosed := false, toUpstream := [], toClient := [] }

/-- Events a session reacts to: a message arriving on one of the two
sockets, or one of them closing. -/
inductive Event where
  | clientMsg (f : Frame)
  | upstreamMsg (f : Frame)
  | clientClose
  | upstreamClose
  deriving DecidableEq, Repr

/-- One event-handler activation, exactly as wired in `handleWs`:
`sock.onmessage = e => proxySock.send(e.data)` and symmetrically, and
`sock.onclose = () => proxySock.close()` and symmetrically.  A message
event on an already-closed socket cannot fire and is a no-op; `close()`
on an already-closed socket is idempotent, so close events set both
flags unconditionally. -/
def step (s : Session) (e : Event) : Session :=
  match e with
  | .clientMsg f =>
      if s.clientClosed then s else { s with toUpstream := s.toUpstream ++ [f] }
  | .upstreamMsg f =>
      if s.upstreamClosed then s else { s with toClient := s.toClient ++ [f] }
  | .clientClose => { s with clientClosed := true, upstreamClosed := true }
  | .upstreamClose => { s with clientClosed := true, upstreamClosed := true }

/-- Running a whole sequence of events through the session. -/
def runEvents (s : Session) (evs : List Event) : Session :=
  evs.foldl step s

/-- The frames carried by the client-to-upstream messages of a trace. -/
def clientFrames (evs : List Event) : List Frame :=
  evs.filterMap (fun e => match e with | .clientMsg f => some f | _ => none)

/-- The frames carried by the upstream-to-client messages of a trace. -/
def upstreamFrames (evs : List Event) : List Frame :=
  evs.filterMap (fun e => match e with | .upstreamMsg f => some f | _ => none)

/-- `true` on the two close events. -/
def Event.isClose : Event → Bool
  | .clientClose => true
  | .upstreamClose => true
  | _ => false

/-- What `handleWs` returns when it does not throw: either the plain
non-upgraded `Response`, or the `Deno.upgradeWebSocket` response handed
back with the freshly wired relay session to `url` with subprotocol
`proto`. -/
inductive WsOutcome where
  | plain (r : Resp)
  | upgraded (url proto : String) (s : Session)
  deriving DecidableEq, Repr

/-- Platform oracles used by `handleWs`: whether `Deno.upgradeWebSocket`
succeeds for this request/protocol, what `new URL(req.url).searchParams.get`
yields, and whether `new WebSocket(url, proto)` throws (`some msg`) or
connects (`none`). -/
structure WsPlatform where
  upgradeOk : Req → String → Bool
  queryGet : String → String → Option String
  wsConnectErr : String → String → Option String

/-- `handleWs(req)`.  The try block covers ONLY `Deno.upgradeWebSocket`;
a failed upgrade yields `new Response("Not a WS connection")` (default
status 200, no explicit headers).  The `url` query parameter defaults to
the empty string, and `new WebSocket(url, proto)` sits outside any try:
if it throws, the exception escapes `handleWs` (`Except.error`). -/
def Proxy.handleWs (_px : Proxy) (p : WsPlatform) (req : Req) : Except String WsOutcome :=
  let proto := (hget req.headers "sec-websocket-protocol").getD ""
  if p.upgradeOk req proto then
    let url := (p.queryGet req.url "url").getD ""
    match p.wsConnectErr url proto with
    | some e => .error e
    | none => .ok (.upgraded url proto initSession)
  else
    .ok (.plain { status := 200, headers := [], body := "Not a WS connection" })

/-! ## Lemmas about the plain-object model -/

theorem mem_objSet {q : String × String} {k v : String} :
    ∀ {o : List (String × String)}, q ∈ objSet o k v → q = (k, v) ∨ q ∈ o := by
  intro o
  induction o with
  | nil => intro h; simp [objSet] at h; exact Or.inl h
  | cons a t ih =>
      cases a with
      | mk k' v' =>
          intro h
          by_cases hk : k' = k
          · simp only [objSet, if_pos hk] at h
            rcases List.mem_cons.mp h with h' | h'
            · exact Or.inl h'
            · exact Or.inr (List.mem_cons_of_mem _ h')
          · simp only [objSet, if_neg hk] at h
            rcases List.mem_cons.mp h with h' | h'
            · exact Or.inr (h' ▸ List.mem_cons_self _ _)
            · rcases ih h' with h'' | h''
              · exact Or.inl h''
              · exact Or.inr (List.mem_cons_of_mem _ h'')

theorem mem_foldl_objSet {q : String × String} :
    ∀ (l : List (String × String)) (o : List (String × String)),
      q ∈ List.foldl (fun o p => objSet o p.1 p.2) o l → q ∈ o ∨ q ∈ l := by
  intro l
  induction l with
  | nil => intro o h; exact Or.inl h
  | cons p t ih =>
      intro o h
      rcases ih (objSet o p.1 p.2) h with h' | h'
      · rcases mem_objSet h' with h'' | h''
        · right; rw [h'', Prod.mk.eta]; exact List.mem_cons_self p t
        · exact Or.inl h''
      · right; right; exact h'

theorem mem_objFromEntries {q : String × String} {l : List (String × String)}
    (h : q ∈ objFromEntries l) : q ∈ l := by
  rcases mem_foldl_objSet l [] h with h' | h'
  · cases h'
  · exact h'

theorem mem_objMerge {q : String × String} {base extra : List (String × String)}
    (h : q ∈ objMerge base extra) : q ∈ base ∨ q ∈ extra :=
  mem_foldl_objSet extra base h

theorem mem_objDelete {q : String × String} {o : List (String × String)} {k : String}
    (h : q ∈ objDelete o k) : q ∈ o ∧ q.1 ≠ k := by
  unfold objDelete at h
  have := List.mem_filter.mp h
  exact ⟨this.1, by simpa using this.2⟩

theorem objGet_objSet_ne {k' v k : String} (hk : k' ≠ k) :
    ∀ o : List (String × String), objGet (objSet o k' v) k = objGet o k := by
  intro o
  induction o with
  | nil => simp [objSet, objGet, hk]
  | cons a t ih =>
      cases a with
      | mk a1 a2 =>
          by_cases ha : a1 = k'
          · rw [show objSet ((a1, a2) :: t) k' v = (k', v) :: t from by
              simp [objSet, ha]]
            have hak : a1 ≠ k := by rw [ha]; exact hk
            simp [objGet, hk, hak]
          · rw [show objSet ((a1, a2) :: t) k' v = (a1, a2) :: objSet t k' v from by
              simp [objSet, ha]]
            by_cases hak : a1 = k
            · simp [objGet, hak]
            · simp [objGet, hak, ih]

theorem objGet_objMerge_of_not_mem {k : String} :
    ∀ (extra base : List (String × String)), (∀ q ∈ extra, q.1 ≠ k) →
      objGet (objMerge base extra) k = objGet base k := by
  intro extra
  induction extra with
  | nil => intro base _; rfl
  | cons p t ih =>
      intro base h
      have hstep : objMerge base (p :: t) = objMerge (objSet base p.1 p.2) t := rfl
      rw [hstep, ih (objSet base p.1 p.2) (fun q hq => h q (List.mem_cons_of_mem p hq))]
      exact objGet_objSet_ne (h p (List.mem_cons_self p t)) base

/-! ## Lemmas about the relay session step relation -/

theorem step_preserves_flag_eq (s : Session) (e : Event)
    (h : s.clientClosed = s.upstreamClosed) :
    (step s e).clientClosed = (step s e).upstreamClosed := by
  cases e with
  | clientMsg f => simp only [step]; split <;> simp [h]
  | upstreamMsg f => simp only [step]; split <;> simp [h]
  | clientClose => simp [step]
  | upstreamClose => simp [step]

theorem runEvents_flag_eq : ∀ (evs : List Event) (s : Session),
    s.clientClosed = s.upstreamClosed →
    (runEvents s evs).clientClosed = (runEvents s evs).upstreamClosed := by
  intro evs
  induction evs with
  | nil => intro s h; exact h
  | cons e t ih =>
      intro s h
      exact ih (step s e) (step_preserves_flag_eq s e h)

theorem runEvents_no_close : ∀ (evs : List Event) (s : Session),
    s.clientClosed = false → s.upstreamClosed = false →
    (∀ e ∈ evs, e.isClose = false) →
    runEvents s evs =
      { clientClosed := false, upstreamClosed := false,
        toUpstream := s.toUpstream ++ clientFrames evs,
        toClient := s.toClient ++ upstreamFrames evs } := by
  intro evs
  induction evs with
  | nil =>
      intro s h1 h2 _
      cases s
      simp_all [runEvents, clientFrames, upstreamFrames]
  | cons e t ih =>
      intro s h1 h2 hno
      have hteq : ∀ e' ∈ t, e'.isClose = false :=
        fun e' he' => hno e' (List.mem_cons_of_mem e he')
      cases e with
      | clientMsg f =>
          have hrun : runEvents s (Event.clientMsg f :: t)
              = runEvents (step s (Event.clientMsg f)) t := rfl
          have hstep : step s (Event.clientMsg f)
              = { s with toUpstream := s.toUpstream ++ [f] } := by
            simp [step, h1]
          rw [hrun, hstep, ih _ (by simp [h1]) (by simp [h2]) hteq]
          simp [clientFrames, upstreamFrames]
      | upstreamMsg f =>
          have hrun : runEvents s (Event.upstreamMsg f :: t)
              = runEvents (step s (Event.upstreamMsg f)) t := rfl
          have hstep : step s (Event.upstreamMsg f)
              = { s with toClient := s.toClient ++ [f] } := by
            simp [step, h2]
          rw [hrun, hstep, ih _ (by simp [h1]) (by simp [h2]) hteq]
          simp [clientFrames, upstreamFrames]
      | clientClose =>
          have := hno Event.clientClose (List.mem_cons_self _ _)
          simp [Event.isClose] at this
      | upstreamClose =>
          have := hno Event.upstreamClose (List.mem_cons_self _ _)
          simp [Event.isClose] at this

/-! ## The claims -/

/-- Claim C1 (counterexample): at a request whose `x-headers` header is
absent, `handle` does NOT return a 500 response — the `JSON.parse` failure
escapes as a rejected promise, because the parse happens before the try
block. -/
theorem forward_malformed_xheaders_500_counterexample :
    Proxy.handle havenProxy
        { jsonParse := fun _ => Except.error "Unexpected end of JSON input",
          fetchResult := fun _ _ => Except.error "unreachable" }
        { method := "GET", url := "http://localhost:8080/fetch", headers := [], body := "" }
      = Except.error "Unexpected end of JSON input" ∧
    Except.isOk
        (Proxy.handle havenProxy
          { jsonParse := fun _ => Except.error "Unexpected end of JSON input",
            fetchResult := fun _ _ => Except.error "unreachable" }
          { method := "GET", url := "http://localhost:8080/fetch", headers := [], body := "" })
      = false :=
  ⟨rfl, rfl⟩

/-- Claim C1 (amended): for every forward request whose `x-headers` header
is absent or not parseable JSON, the parse error propagates out of
`ForwardHandler.handle` as an exception (a rejected promise) carrying the
parse error; no response — in particular no 500 — is produced. -/
theorem forward_malformed_xheaders_rejects (px : Proxy) (p : Platform) (req : Req) (e : String)
    (h : p.jsonParse ((hget req.headers "x-headers").getD "") = Except.error e) :
    px.handle p req = Except.error e := by
  simp [Proxy.handle, h]

theorem forward_malformed_xheaders_rejects_witness :
    Proxy.handle havenProxy
        { jsonParse := fun _ => Except.error "Unexpected end of JSON input",
          fetchResult := fun _ _ => Except.error "unreachable" }
        { method := "POST", url := "http://localhost:8080/fetch",
          headers := [("x-url", "http://example.com/"), ("x-headers", "not json")],
          body := "payload" }
      = Except.error "Unexpected end of JSON input" :=
  forward_malformed_xheaders_rejects havenProxy _ _ _ rfl

/-- Claim C2: when the outbound fetch fails, `handle` returns a response
with status 500 whose body is the error message; the failure never escapes
(the result is `Except.ok`), and the single fetch outcome fully determines
the response (no retry). -/
theorem forward_fetch_failure_returns_500 (px : Proxy) (p : Platform) (req : Req)
    (hs : Hdrs) (msg : String)
    (h1 : p.jsonParse ((hget req.headers "x-headers").getD "") = Except.ok hs)
    (h2 : p.fetchResult ((hget req.headers "x-url").getD "") (mkOpts req hs)
      = Except.error msg) :
    px.handle p req = Except.ok { status := 500, headers := [], body := msg } := by
  simp [Proxy.handle, handleTry, h1, h2]

theorem forward_fetch_failure_returns_500_witness :
    Proxy.handle havenProxy
        { jsonParse := fun _ => Except.ok [("accept", "text/html")],
          fetchResult := fun _ _ => Except.error "connection refused" }
        { method := "GET", url := "http://localhost:8080/fetch",
          headers := [("x-url", "not a url"), ("x-headers", "irrelevant")], body := "" }
      = Except.ok { status := 500, headers := [], body := "connection refused" } :=
  forward_fetch_failure_returns_500 havenProxy _ _ [("accept", "text/html")]
    "connection refused" rfl rfl

/-- Claim C3: when the outbound fetch succeeds, the returned response has
the upstream status, its headers contain no `age` or `expires` key, and
its `cache-control` header is exactly the forced value `no-cache`
(the `Headers` class yields lower-cased keys from `entries()`, the `hlow`
hypothesis). -/
theorem forward_success_strips_caching_headers (px : Proxy) (p : Platform) (req : Req)
    (hs : Hdrs) (u : UpstreamResp)
    (h1 : p.jsonParse ((hget req.headers "x-headers").getD "") = Except.ok hs)
    (h2 : p.fetchResult ((hget req.headers "x-url").getD "") (mkOpts req hs) = Except.ok u)
    (hlow : ∀ kv ∈ u.headersEntries, lowerStr kv.1 = kv.1) :
    px.handle p req = Except.ok (sanitize u) ∧
    (sanitize u).status = u.status ∧
    (∀ kv ∈ (sanitize u).headers, lowerStr kv.1 ≠ "age" ∧ lowerStr kv.1 ≠ "expires") ∧
    objGet (sanitize u).headers "cache-control" = some "no-cache" ∧
    (∀ kv ∈ (sanitize u).headers, lowerStr kv.1 = "cache-control" →
      kv = ("cache-control", "no-cache")) := by
  refine ⟨by simp [Proxy.handle, handleTry, h1, h2], rfl, ?_, ?_, ?_⟩
  · intro kv hkv
    rcases mem_objMerge hkv with hb | hd
    · simp only [List.mem_singleton] at hb
      subst hb
      exact ⟨by decide, by decide⟩
    · have h3 := mem_objDelete hd
      have h4 := mem_objDelete h3.1
      have h5 := mem_objDelete h4.1
      have h6 := mem_objFromEntries h5.1
      have h7 := hlow kv h6
      exact ⟨fun hc => h5.2 (h7.symm.trans hc), fun hc => h3.2 (h7.symm.trans hc)⟩
  · have hne : ∀ q ∈ strippedHeaders u, q.1 ≠ "cache-control" := by
      intro q hq
      exact (mem_objDelete (mem_objDelete hq).1).2
    have : objGet (objMerge [("cache-control", "no-cache")] (strippedHeaders u))
        "cache-control" = objGet [("cache-control", "no-cache")] "cache-control" :=
      objGet_objMerge_of_not_mem (strippedHeaders u) [("cache-control", "no-cache")] hne
    exact this.trans rfl
  · intro kv hkv hcc
    rcases mem_objMerge hkv with hb | hd
    · simpa using hb
    · exfalso
      have h3 := mem_objDelete hd
      have h4 := mem_objDelete h3.1
      have h5 := mem_objDelete h4.1
      have h6 := mem_objFromEntries h5.1
      have h7 := hlow kv h6
      exact h4.2 (h7.symm.trans hcc)

theorem forward_success_strips_caching_headers_witness :
    Proxy.handle havenProxy
        { jsonParse := fun _ => Except.ok [("accept", "text/html")],
          fetchResult := fun _ _ => Except.ok
            { status := 304,
              headersEntries := [("age", "76"), ("cache-control", "max-age=600"),
                ("content-type", "text/html"), ("expires", "soon")],
              body := "the payload" } }
        { method := "GET", url := "http://localhost:8080/fetch",
          headers := [("x-url", "http://example.com/"), ("x-headers", "irrelevant")],
          body := "" }
      = Except.ok (sanitize
          { status := 304,
            headersEntries := [("age", "76"), ("cache-control", "max-age=600"),
              ("content-type", "text/html"), ("expires", "soon")],
            body := "the payload" }) :=
  (forward_success_strips_caching_headers havenProxy _ _ [("accept", "text/html")] _
    rfl rfl (by decide)).1

/-- Claim C4: with the configured instance `new Proxy("/fetch", "/fetchWs")`,
`route` matches `/fetch` exactly and rejects `/fetch/x`, while `routeWs`
accepts `/fetchWs` and any sub-path of it. -/
theorem route_exact_and_routeWs_sub :
    havenProxy.route "/fetch" = true ∧ havenProxy.route "/fetch/x" = false ∧
    havenProxy.routeWs "/fetchWs" = true ∧ havenProxy.routeWs "/fetchWs/anything" = true := by
  decide

/-- A proxy whose two route strings are distinct yet overlap: the forward
route starts with the relay route. -/
def overlapProxy : Proxy := { pfx := "/ab", wsPfx := "/a", dbg := false }

/-- Claim C5 (counterexample): distinct route strings are not enough for
mutual exclusion — with forward route `/ab` and relay route `/a`, the
path `/ab` satisfies both predicates. -/
theorem route_overlap_counterexample :
    overlapProxy.pfx ≠ overlapProxy.wsPfx ∧
    overlapProxy.route "/ab" = true ∧ overlapProxy.routeWs "/ab" = true := by
  decide

/-- Claim C5 (amended): the two predicates are mutually exclusive whenever
the forward route does not itself start with the relay route (a strictly
stronger condition than distinctness, which the configured pair
`/fetch`, `/fetchWs` satisfies). -/
theorem route_mutually_exclusive_of_no_overlap (px : Proxy) (path : String)
    (h : px.wsPfx.data.isPrefixOf px.pfx.data = false) :
    ¬(px.route path = true ∧ px.routeWs path = true) := by
  rintro ⟨h1, h2⟩
  have hp : path = px.pfx := by simpa [Proxy.route] using h1
  rw [hp] at h2
  unfold Proxy.routeWs at h2
  rw [h] at h2
  exact Bool.false_ne_true h2

theorem route_mutually_exclusive_of_no_overlap_witness :
    ¬(havenProxy.route "/fetchWs/x" = true ∧ havenProxy.routeWs "/fetchWs/x" = true) :=
  route_mutually_exclusive_of_no_overlap havenProxy "/fetchWs/x" (by decide)

/-- Claim C6: the outbound request built by `handle` carries the inbound
method unchanged, and a body — the buffered inbound body text — exactly
when the method is `POST`; `handle` issues the fetch with precisely these
options. -/
theorem forward_method_and_post_body (px : Proxy) (p : Platform) (req : Req) (hs : Hdrs)
    (h : p.jsonParse ((hget req.headers "x-headers").getD "") = Except.ok hs) :
    px.handle p req =
      Except.ok (handleTry p ((hget req.headers "x-url").getD "") (mkOpts req hs)) ∧
    (mkOpts req hs).method = req.method ∧
    ((mkOpts req hs).body = some req.body ↔ req.method = "POST") ∧
    (req.method ≠ "POST" → (mkOpts req hs).body = none) := by
  refine ⟨by simp [Proxy.handle, h], ?_, ?_, ?_⟩
  · by_cases hm : req.method = "POST" <;> simp [mkOpts, hm]
  · by_cases hm : req.method = "POST" <;> simp [mkOpts, hm]
  · intro hm
    simp [mkOpts, hm]

theorem forward_method_and_post_body_witness :
    Proxy.handle havenProxy
        { jsonParse := fun _ => Except.ok [],
          fetchResult := fun _ _ => Except.error "network down" }
        { method := "POST", url := "http://localhost:8080/fetch",
          headers := [("x-url", "http://example.com/post"), ("x-headers", "irrelevant")],
          body := "form data" }
      = Except.ok (handleTry
          { jsonParse := fun _ => Except.ok [],
            fetchResult := fun _ _ => Except.error "network down" }
          "http://example.com/post"
          (mkOpts
            { method := "POST", url := "http://localhost:8080/fetch",
              headers := [("x-url", "http://example.com/post"), ("x-headers", "irrelevant")],
              body := "form data" } [])) ∧
    (mkOpts
        { method := "POST", url := "http://localhost:8080/fetch",
          headers := [("x-url", "http://example.com/post"), ("x-headers", "irrelevant")],
          body := "form data" } []).body = some "form data" := by
  refine ⟨?_, ?_⟩
  · have h := forward_method_and_post_body havenProxy
      { jsonParse := fun _ => Except.ok [],
        fetchResult := fun _ _ => Except.error "network down" }
      { method := "POST", url := "http://localhost:8080/fetch",
        headers := [("x-url", "http://example.com/post"), ("x-headers", "irrelevant")],
        body := "form data" } [] rfl
    exact h.1
  · rfl

/-- Claim C7: a relay request that is not a valid WebSocket upgrade gets
the plain response with body `Not a WS connection` (default status 200),
and the upgrade error never escapes `handleWs`. -/
theorem relay_upgrade_failure_plain_response (px : Proxy) (p : WsPlatform) (req : Req)
    (h : p.upgradeOk req ((hget req.headers "sec-websocket-protocol").getD "") = false) :
    px.handleWs p req =
      Except.ok (WsOutcome.plain
        { status := 200, headers := [], body := "Not a WS connection" }) := by
  simp [Proxy.handleWs, h]

theorem relay_upgrade_failure_plain_response_witness :
    Proxy.handleWs havenProxy
        { upgradeOk := fun _ _ => false,
          queryGet := fun _ _ => none,
          wsConnectErr := fun _ _ => none }
        { method := "GET", url := "http://localhost:8080/fetchWs", headers := [], body := "" }
      = Except.ok (WsOutcome.plain
          { status := 200, headers := [], body := "Not a WS connection" }) :=
  relay_upgrade_failure_plain_response havenProxy _ _ rfl

/-- Claim C8: in an established relay session, as long as neither side
closes, every frame received on the client socket is appended verbatim and
in order to what is sent to the upstream socket, and symmetrically for the
other direction — for traces of any length. -/
theorem relay_forwards_verbatim (evs : List Event)
    (h : ∀ e ∈ evs, e.isClose = false) :
    runEvents initSession evs =
      { clientClosed := false, upstreamClosed := false,
        toUpstream := clientFrames evs, toClient := upstreamFrames evs } := by
  have h' := runEvents_no_close evs initSession rfl rfl h
  simpa [initSession] using h'

theorem relay_forwards_verbatim_witness :
    runEvents initSession
        [Event.clientMsg (Frame.text "hello"), Event.upstreamMsg (Frame.binary [104, 105]),
          Event.clientMsg (Frame.binary [0, 255])] =
      { clientClosed := false, upstreamClosed := false,
        toUpstream := [Frame.text "hello", Frame.binary [0, 255]],
        toClient := [Frame.binary [104, 105]] } :=
  relay_forwards_verbatim _ (by decide)

/-- Claim C9: in every reachable session state, a close event on either
socket leaves the other socket closed as well (the `onclose` wiring), and
the two closed-flags always agree — a close on one side never leaves the
other connection dangling. -/
theorem relay_close_propagation (evs : List Event) :
    (step (runEvents initSession evs) Event.clientClose).upstreamClosed = true ∧
    (step (runEvents initSession evs) Event.upstreamClose).clientClosed = true ∧
    (runEvents initSession evs).clientClosed = (runEvents initSession evs).upstreamClosed :=
  ⟨rfl, rfl, runEvents_flag_eq evs initSession rfl⟩

/-- Claim C10: on a valid upgrade whose URL has no `url` query parameter,
the target defaults to the empty string, and the throwing `WebSocket`
constructor sits outside any try block, so the exception escapes
`handleWs` and no response is returned. -/
theorem relay_missing_url_param_throws (px : Proxy) (p : WsPlatform) (req : Req) (e : String)
    (h1 : p.upgradeOk req ((hget req.headers "sec-websocket-protocol").getD "") = true)
    (h2 : p.queryGet req.url "url" = none)
    (h3 : p.wsConnectErr "" ((hget req.headers "sec-websocket-protocol").getD "")
      = some e) :
    px.handleWs p req = Except.error e := by
  simp [Proxy.handleWs, h1, h2, h3]

theorem relay_missing_url_param_throws_witness :
    Proxy.handleWs havenProxy
        { upgradeOk := fun _ _ => true,
          queryGet := fun _ _ => none,
          wsConnectErr := fun u _ =>
            if u = "" then some "SyntaxError: Invalid URL" else none }
        { method := "GET", url := "http://localhost:8080/fetchWs", headers := [], body := "" }
      = Except.error "SyntaxError: Invalid URL" :=
  relay_missing_url_param_throws havenProxy _ _ _ rfl rfl (by decide)

end Haven
